import Mathlib

/-!
Shallow embedding of the analytics subsystem of `server.py` (a Flask
application with a SQLite store).  Timestamps are modelled as natural
numbers counting seconds; `DATE(timestamp)` becomes division by 86400.
SQLite's transactional behaviour is modelled by a connection holding a
committed store and a pending store: `execute` statements act on the
pending store, `commit` publishes it.
-/

namespace Portfo

/-- One row of the `page_views` table (`server.py`, `init_analytics_database`). -/
structure PageView where
  session_id : String
  page_url : String
  ip_address : String
  user_agent : String
  referrer : String
  timestamp : Nat
deriving Repr, DecidableEq

/-- One row of the `unique_visitors` table (`server.py`, `init_analytics_database`). -/
structure Visitor where
  session_id : String
  first_visit : Nat
  last_visit : Nat
deriving Repr, DecidableEq

/-- The analytics database: both tables. -/
structure DB where
  page_views : List PageView
  unique_visitors : List Visitor
deriving Repr, DecidableEq

/-- A SQLite connection as used by the tracking hook: `execute` mutates
`pending`; `commit` copies `pending` into `committed`; a connection closed
without commit leaves `committed` unchanged. -/
structure Conn where
  committed : DB
  pending : DB
deriving Repr, DecidableEq

/-- The parts of a Flask request read by the tracking code. -/
structure Request where
  path : String
  cookieSessionId : Option String
  xForwardedFor : Option String
  remoteAddr : String
  userAgent : Option String
  referer : Option String
deriving Repr, DecidableEq

/-- A `Set-Cookie` instruction as produced by `response.set_cookie`. -/
structure SetCookie where
  name : String
  value : String
  maxAge : Nat
  httponly : Bool
  samesite : String
  secure : Bool
deriving Repr, DecidableEq

/-- The parts of a Flask response read or written by the tracking code. -/
structure Response where
  status_code : Nat
  content_type : Option String
  body : String
  cookies : List SetCookie
deriving Repr, DecidableEq

/-- Does a list of characters start with the given pattern? -/
def hasPrefixL : List Char → List Char → Bool
  | [], _ => true
  | _ :: _, [] => false
  | p :: ps, c :: cs => p == c && hasPrefixL ps cs

/-- Does a list of characters contain the given pattern as a contiguous run? -/
def hasSubL (p : List Char) : List Char → Bool
  | [] => p.isEmpty
  | c :: cs => hasPrefixL p (c :: cs) || hasSubL p cs

/-- Python's `pat in s` substring test (case-sensitive). -/
def strContainsSub (pat s : String) : Bool :=
  hasSubL pat.data s.data

/-- ASCII lower-casing of a string, character by character (SQLite's LIKE
folds exactly the ASCII range). -/
def lcStr (s : String) : String :=
  String.mk (s.data.map Char.toLower)

/-- SQLite `s LIKE '%pat%'`: substring match, case-insensitive on ASCII. -/
def likeSub (pat s : String) : Bool :=
  hasSubL (lcStr pat).data (lcStr s).data

/-- Python truthiness of an optional string: `None` and `""` are falsy. -/
def strTruthy : Option String → Bool
  | none => false
  | some s => !(s == "")

/-- The characters before the first comma: Python's `s.split(',')[0]`. -/
def takeUntilComma : List Char → List Char
  | [] => []
  | c :: cs => if c == ',' then [] else c :: takeUntilComma cs

/-- Python's `s.split(',')[0]` as a string operation. -/
def firstCommaField (s : String) : String := String.mk (takeUntilComma s.data)

/-- Python's `s.strip()`: drop leading and trailing whitespace. -/
def pyStrip (s : String) : String :=
  String.mk (((s.data.dropWhile Char.isWhitespace).reverse.dropWhile
    Char.isWhitespace).reverse)

/-- `get_client_ip` (`server.py` lines 133-137): first comma-separated value
of `X-Forwarded-For` (stripped) when that header is truthy, else the socket
peer address. -/
def get_client_ip (req : Request) : String :=
  if strTruthy req.xForwardedFor then
    pyStrip (firstCommaField (req.xForwardedFor.getD ""))
  else
    req.remoteAddr

/-- Session resolution (`server.py` lines 156-158): take the cookie value
when truthy, otherwise mint `freshId` (`str(uuid.uuid4())`); the Bool
records whether a fresh identifier was minted. -/
def resolve_session (cookie : Option String) (freshId : String) : String × Bool :=
  if strTruthy cookie then (cookie.getD "", false) else (freshId, true)

/-- The cookie set by `response.set_cookie` (`server.py` lines 161-168). -/
def mkSessionCookie (sid : String) (debug : Bool) : SetCookie :=
  { name := "session_id", value := sid, maxAge := 30 * 24 * 60 * 60,
    httponly := true, samesite := "Lax", secure := !debug }

/-- Attach a cookie to a response. -/
def setCookieOn (resp : Response) (c : SetCookie) : Response :=
  { resp with cookies := resp.cookies ++ [c] }

/-- The `INSERT ... ON CONFLICT(session_id) DO UPDATE SET last_visit = ...`
statement (`server.py` lines 171-176): insert a fresh row when the session
is unseen, otherwise update only `last_visit`. -/
def upsert_visitor (db : DB) (sid : String) (now : Nat) : DB :=
  if db.unique_visitors.any (fun v => v.session_id == sid) then
    let updated := db.unique_visitors.map
      (fun v => if v.session_id == sid then { v with last_visit := now } else v)
    { db with unique_visitors := updated }
  else
    { db with unique_visitors := db.unique_visitors ++ [⟨sid, now, now⟩] }

/-- The `INSERT INTO page_views ...` statement (`server.py` lines 179-188). -/
def insert_page_view (db : DB) (sid url ip ua ref : String) (now : Nat) : DB :=
  { db with page_views := db.page_views ++ [⟨sid, url, ip, ua, ref, now⟩] }

/-- The qualifying condition of `track_page_view` (`server.py` lines 147-150):
status 200, content type truthy and containing `text/html`, and the path not
starting with `/static` or `/admin`. -/
def qualifying (req : Request) (resp : Response) : Bool :=
  resp.status_code == 200 &&
  (match resp.content_type with
   | none => false
   | some ct => !(ct == "") && strContainsSub "text/html" ct) &&
  !(req.path.startsWith "/static" || req.path.startsWith "/admin")

/-- `track_page_view` (`server.py` lines 141-195).  `fault = some k` models an
exception raised inside the `try` block immediately before step `k`
(1 = session resolution / cookie, 2 = visitor upsert, 3 = page-view insert,
4 = commit); the exception is caught, so the partially updated response and
connection are returned as they stand. -/
def trackPageView (req : Request) (resp : Response) (conn : Conn) (now : Nat)
    (freshId : String) (fault : Option Nat) (debug : Bool) : Response × Conn :=
  if qualifying req resp then
    if fault == some 1 then (resp, conn) else
    let sm := resolve_session req.cookieSessionId freshId
    let resp1 := if sm.2 then setCookieOn resp (mkSessionCookie sm.1 debug) else resp
    if fault == some 2 then (resp1, conn) else
    let conn2 : Conn := { conn with pending := upsert_visitor conn.pending sm.1 now }
    if fault == some 3 then (resp1, conn2) else
    let pend3 := insert_page_view conn2.pending sm.1 req.path (get_client_ip req)
      (req.userAgent.getD "") (req.referer.getD "") now
    let conn3 : Conn := { conn2 with pending := pend3 }
    if fault == some 4 then (resp1, conn3) else
    (resp1, { conn3 with committed := conn3.pending })
  else
    (resp, conn)

/-- Seconds per day; `DATE(timestamp)` is `timestamp / 86400` in this model. -/
def secPerDay : Nat := 86400

/-- Calendar day of a timestamp. -/
def dayOf (t : Nat) : Nat := t / secPerDay

/-- `SELECT COUNT(*) FROM page_views` (`server.py` line 273). -/
def count_total_views (db : DB) : Nat := db.page_views.length

/-- `SELECT COUNT(*) FROM unique_visitors` (`server.py` lines 274-275). -/
def count_unique_visitors (db : DB) : Nat := db.unique_visitors.length

/-- `WHERE timestamp >= ? AND timestamp < ?` (`server.py` lines 281-287). -/
def count_views_in_range (db : DB) (start stop : Nat) : Nat :=
  (db.page_views.filter
    (fun r => decide (start ≤ r.timestamp) && decide (r.timestamp < stop))).length

/-- `now.replace(hour=0, minute=0, second=0, microsecond=0)`
(`server.py` line 279). -/
def start_of_day (now : Nat) : Nat := now - now % secPerDay

/-- The views-today statistic (`server.py` lines 277-288): count of page
views in the half-open interval from start of today to start of tomorrow. -/
def views_today (db : DB) (now : Nat) : Nat :=
  count_views_in_range db (start_of_day now) (start_of_day now + secPerDay)

/-- One row of the popular-pages query result. -/
structure PageStat where
  page_url : String
  views : Nat
  last_viewed : Nat
deriving Repr, DecidableEq

/-- The popular-pages query (`server.py` lines 291-300): group `page_views`
by `page_url`, count and take the latest timestamp per group, order by
views descending, and apply the LIMIT when one is given. -/
def top_pages (db : DB) (limit : Option Nat) : List PageStat :=
  let stats := ((db.page_views.map (fun r => r.page_url)).dedup).map
    (fun u =>
      let rows := db.page_views.filter (fun r => r.page_url == u)
      PageStat.mk u rows.length ((rows.map (fun r => r.timestamp)).foldl max 0))
  let sorted := stats.insertionSort (fun a b => b.views ≤ a.views)
  match limit with
  | some k => sorted.take k
  | none => sorted

/-- Browser classification of one user-agent (`server.py` lines 312-325):
a chain of SQLite `LIKE '%...%'` tests, which are case-insensitive over
ASCII, with first match winning. -/
def browserOf (ua : String) : String :=
  if likeSub "Chrome" ua then "Chrome"
  else if likeSub "Firefox" ua then "Firefox"
  else if likeSub "Safari" ua then "Safari"
  else if likeSub "Edge" ua then "Edge"
  else "Other"

/-- The classification the spec describes: the same chain but with
case-sensitive substring tests ("case-sensitive substring match against the
raw user-agent string"). -/
def browserOfSpecCS (ua : String) : String :=
  if strContainsSub "Chrome" ua then "Chrome"
  else if strContainsSub "Firefox" ua then "Firefox"
  else if strContainsSub "Safari" ua then "Safari"
  else if strContainsSub "Edge" ua then "Edge"
  else "Other"

/-- The client-IP rule the spec describes: the first comma-separated value
of the forwarded-for header whenever the header is present, else the peer
address (no exception for a present-but-empty header). -/
def clientIpSpec (req : Request) : String :=
  match req.xForwardedFor with
  | some h => pyStrip (firstCommaField h)
  | none => req.remoteAddr

/-- The visits-over-time query (`server.py` lines 342-353): keep page views
whose day is within the trailing 7-day window (`timestamp >=
DATE('now','-6 days')`, which admits every row dated on or after six days
before today), group by day, order by day ascending, and return the
parallel lists of dates and counts. -/
def visits_over_time (db : DB) (today : Nat) : List Nat × List Nat :=
  let rows := db.page_views.filter (fun r => decide (today - 6 ≤ dayOf r.timestamp))
  let days := ((rows.map (fun r => dayOf r.timestamp)).dedup).insertionSort
    (fun a b => a ≤ b)
  (days, days.map (fun d => (rows.filter (fun r => dayOf r.timestamp == d)).length))

/-- The spec's wording of the qualifying condition of §4.3: status exactly
200, content type present and containing `text/html`, path not under the
static or admin prefix. -/
def QualifyingSpec (req : Request) (resp : Response) : Prop :=
  resp.status_code = 200 ∧
  (∃ ct pre post, resp.content_type = some ct ∧
    ct.data = pre ++ "text/html".data ++ post) ∧
  ¬(req.path.startsWith "/static" = true ∨ req.path.startsWith "/admin" = true)

/-- Case-insensitive (ASCII) substring containment, the relation actually
decided by the SQLite `LIKE '%pat%'` tests in the browser breakdown. -/
def ContainsCI (pat s : String) : Prop :=
  ∃ pre post, s.data.map Char.toLower = pre ++ pat.data.map Char.toLower ++ post

/-- A 200 HTML response with no cookies yet. -/
def respHtml : Response := Response.mk 200 (some "text/html") "b" []

/-- A fresh per-request connection over an empty store. -/
def connEmpty : Conn := Conn.mk (DB.mk [] []) (DB.mk [] [])

/-- A request whose session cookie is present but empty. -/
def reqEmptyCookie : Request := Request.mk "/" (some "") none "1.1.1.1" none none

/-- A request with no session cookie. -/
def reqNoCookie : Request := Request.mk "/" none none "1.1.1.1" none none

/-- A request whose forwarded-for header is present but empty. -/
def reqEmptyXff : Request := Request.mk "/" none (some "") "9.9.9.9" none none

/-- A request with a populated forwarded-for header. -/
def reqXff : Request :=
  Request.mk "/" none (some " 1.2.3.4 , 5.6.7.8") "9.9.9.9" none none

/-- A store with page views on day 1 and day 7 only. -/
def dbTwoDays : DB :=
  DB.mk [PageView.mk "s" "/" "i" "u" "r" (86400 + 5),
         PageView.mk "s" "/a" "i" "u" "r" (7 * 86400 + 3),
         PageView.mk "s" "/a" "i" "u" "r" (7 * 86400 + 9)] []

/-! ### Helper lemmas -/

theorem hasPrefixL_iff (p l : List Char) :
    hasPrefixL p l = true ↔ ∃ t, l = p ++ t := by
  induction p generalizing l with
  | nil => simp [hasPrefixL]
  | cons x xs ih =>
    cases l with
    | nil => simp [hasPrefixL]
    | cons c cs =>
      simp only [hasPrefixL, Bool.and_eq_true, beq_iff_eq, ih, List.cons_append,
        List.cons.injEq]
      constructor
      · rintro ⟨rfl, t, rfl⟩; exact ⟨t, rfl, rfl⟩
      · rintro ⟨t, rfl, rfl⟩; exact ⟨rfl, t, rfl⟩

theorem hasSubL_iff (p l : List Char) :
    hasSubL p l = true ↔ ∃ pre post, l = pre ++ p ++ post := by
  induction l with
  | nil =>
    simp only [hasSubL, List.isEmpty_iff]
    constructor
    · rintro rfl; exact ⟨[], [], rfl⟩
    · rintro ⟨pre, post, h⟩
      rcases List.append_eq_nil.mp h.symm with ⟨h1, h2⟩
      exact (List.append_eq_nil.mp h1).2
  | cons c cs ih =>
    simp only [hasSubL, Bool.or_eq_true, hasPrefixL_iff, ih]
    constructor
    · rintro (⟨t, ht⟩ | ⟨pre, post, rfl⟩)
      · exact ⟨[], t, by simp [ht]⟩
      · exact ⟨c :: pre, post, rfl⟩
    · rintro ⟨pre, post, h⟩
      cases pre with
      | nil => exact Or.inl ⟨post, by simpa using h⟩
      | cons d ds =>
        simp only [List.cons_append, List.cons.injEq] at h
        exact Or.inr ⟨ds, post, h.2⟩

/-- `strContainsSub` really is the substring relation. -/
theorem strContainsSub_iff (pat s : String) :
    strContainsSub pat s = true ↔ ∃ pre post, s.data = pre ++ pat.data ++ post := by
  simp [strContainsSub, hasSubL_iff]

/-- `likeSub` really is the ASCII-case-insensitive substring relation. -/
theorem likeSub_iff (pat s : String) :
    likeSub pat s = true ↔
      ∃ pre post, s.data.map Char.toLower = pre ++ pat.data.map Char.toLower ++ post := by
  simp [likeSub, lcStr, hasSubL_iff]

theorem filter_map_update (l : List Visitor) (S : String) (now : Nat) :
    (l.map (fun v => if v.session_id == S then { v with last_visit := now } else v)).filter
      (fun v => v.session_id == S)
    = (l.filter (fun v => v.session_id == S)).map
        (fun v => { v with last_visit := now }) := by
  induction l with
  | nil => rfl
  | cons v vs ih =>
    by_cases h : v.session_id = S
    · simp only [List.map_cons, List.filter_cons] at ih ⊢
      simp [h] at ih ⊢
      exact ih
    · simp only [List.map_cons, List.filter_cons] at ih ⊢
      simp [h] at ih ⊢
      exact ih

theorem filter_map_other (l : List Visitor) (S T : String) (hne : T ≠ S) (now : Nat) :
    (l.map (fun v => if v.session_id == T then { v with last_visit := now } else v)).filter
      (fun v => v.session_id == S)
    = l.filter (fun v => v.session_id == S) := by
  induction l with
  | nil => rfl
  | cons v vs ih =>
    by_cases h : v.session_id = T
    · simp only [List.map_cons, List.filter_cons] at ih ⊢
      simp [h, hne] at ih ⊢
      exact ih
    · by_cases h2 : v.session_id = S
      · simp only [List.map_cons, List.filter_cons] at ih ⊢
        simp [h, h2, hne.symm] at ih ⊢
        exact ih
      · simp only [List.map_cons, List.filter_cons] at ih ⊢
        simp [h, h2] at ih ⊢
        exact ih

/-- Upsert of an unseen session inserts a row with both visit times `now`. -/
theorem upsert_visitor_unseen (db : DB) (S : String) (now : Nat)
    (h : db.unique_visitors.filter (fun v => v.session_id == S) = []) :
    (upsert_visitor db S now).unique_visitors.filter (fun v => v.session_id == S)
      = [⟨S, now, now⟩] := by
  have hany : db.unique_visitors.any (fun v => v.session_id == S) = false := by
    cases hcase : db.unique_visitors.any (fun v => v.session_id == S) with
    | false => rfl
    | true =>
      rcases List.any_eq_true.mp hcase with ⟨v, hv, hvS⟩
      have : v ∈ db.unique_visitors.filter (fun v => v.session_id == S) :=
        List.mem_filter.mpr ⟨hv, hvS⟩
      rw [h] at this
      exact absurd this (List.not_mem_nil v)
  simp [upsert_visitor, hany, List.filter_append, h]

/-- Upsert of a seen session keeps `first_visit` and sets `last_visit := now`. -/
theorem upsert_visitor_seen (db : DB) (S : String) (now : Nat) (v : Visitor)
    (h : db.unique_visitors.filter (fun v => v.session_id == S) = [v]) :
    (upsert_visitor db S now).unique_visitors.filter (fun v => v.session_id == S)
      = [⟨S, v.first_visit, now⟩] := by
  have hv : v ∈ db.unique_visitors.filter (fun v => v.session_id == S) := by
    rw [h]; exact List.mem_singleton_self v
  rcases List.mem_filter.mp hv with ⟨hmem, hS⟩
  have hSid : v.session_id = S := by simpa using hS
  have hany : db.unique_visitors.any (fun v => v.session_id == S) = true :=
    List.any_eq_true.mpr ⟨v, hmem, hS⟩
  simp only [upsert_visitor, hany, if_pos]
  rw [filter_map_update, h]
  simp [hSid]

/-- Upsert for one session never disturbs another session's rows. -/
theorem upsert_visitor_other (db : DB) (S T : String) (hne : T ≠ S) (now : Nat) :
    (upsert_visitor db T now).unique_visitors.filter (fun v => v.session_id == S)
      = db.unique_visitors.filter (fun v => v.session_id == S) := by
  cases hany : db.unique_visitors.any (fun v => v.session_id == T) with
  | true =>
    simp only [upsert_visitor, hany, if_pos]
    exact filter_map_other _ S T hne now
  | false =>
    simp only [upsert_visitor, hany]
    simp [List.filter_append, hne]

/-- Folding upserts over later visits keeps `first_visit` and tracks the
last timestamp. -/
theorem upsert_fold_last (S : String) (ts : List Nat) :
    ∀ (db : DB) (f l : Nat),
      db.unique_visitors.filter (fun v => v.session_id == S) = [⟨S, f, l⟩] →
      ((ts.foldl (fun d τ => upsert_visitor d S τ) db).unique_visitors.filter
        (fun v => v.session_id == S)) = [⟨S, f, ts.getLastD l⟩] := by
  induction ts with
  | nil => intro db f l h; simpa using h
  | cons τ rest ih =>
    intro db f l h
    have step := upsert_visitor_seen db S τ ⟨S, f, l⟩ h
    rw [List.foldl_cons, List.getLastD_cons]
    exact ih (upsert_visitor db S τ) f τ step

/-- Neither upsert branch touches the `page_views` table. -/
theorem upsert_visitor_page_views (db : DB) (S : String) (now : Nat) :
    (upsert_visitor db S now).page_views = db.page_views := by
  cases hany : db.unique_visitors.any (fun v => v.session_id == S) with
  | true => simp [upsert_visitor, hany]
  | false => simp [upsert_visitor, hany]

/-- The page-view insert does not touch the `unique_visitors` table. -/
theorem insert_page_view_unique_visitors (db : DB) (sid url ip ua ref : String)
    (now : Nat) :
    (insert_page_view db sid url ip ua ref now).unique_visitors
      = db.unique_visitors := rfl

/-- The Boolean guard in the code decides exactly the spec's qualifying
condition. -/
theorem qualifying_iff (req : Request) (resp : Response) :
    qualifying req resp = true ↔ QualifyingSpec req resp := by
  unfold qualifying QualifyingSpec
  cases hct : resp.content_type with
  | none =>
    simp
  | some ct =>
    simp only [Bool.and_eq_true, beq_iff_eq, Bool.not_eq_true', Bool.or_eq_false_iff,
      Bool.not_eq_true, strContainsSub_iff, Option.some.injEq]
    constructor
    · rintro ⟨⟨h200, hne, pre, post, hdec⟩, hpath⟩
      refine ⟨h200, ⟨ct, pre, post, rfl, hdec⟩, ?_⟩
      rintro (hs | hs) <;> simp [hs] at hpath
    · rintro ⟨h200, ⟨ct', pre, post, hct', hdec⟩, hpath⟩
      cases hct'
      refine ⟨⟨h200, ?_, pre, post, hdec⟩, ?_⟩
      · rw [beq_eq_false_iff_ne]
        intro he
        subst he
        have : ([] : List Char) = pre ++ "text/html".data ++ post := hdec
        simp at this
      · constructor
        · cases hs : req.path.startsWith "/static" with
          | true => exact absurd (Or.inl hs) hpath
          | false => rfl
        · cases ha : req.path.startsWith "/admin" with
          | true => exact absurd (Or.inr ha) hpath
          | false => rfl

/-- Shape of a fault-free qualifying run of the tracking hook. -/
theorem trackPageView_run (req : Request) (resp : Response) (conn : Conn)
    (now : Nat) (freshId : String) (debug : Bool)
    (hq : qualifying req resp = true) :
    trackPageView req resp conn now freshId none debug =
      (let sm := resolve_session req.cookieSessionId freshId
       let pend := insert_page_view (upsert_visitor conn.pending sm.1 now) sm.1
         req.path (get_client_ip req) (req.userAgent.getD "") (req.referer.getD "") now
       ((if sm.2 then setCookieOn resp (mkSessionCookie sm.1 debug) else resp),
        { committed := pend, pending := pend })) := by
  simp [trackPageView, hq]

/-- A non-qualifying request leaves both response and connection alone. -/
theorem trackPageView_skip (req : Request) (resp : Response) (conn : Conn)
    (now : Nat) (freshId : String) (fault : Option Nat) (debug : Bool)
    (hq : qualifying req resp = false) :
    trackPageView req resp conn now freshId fault debug = (resp, conn) := by
  simp [trackPageView, hq]

/-! ### Claims -/

/-- **C1** For every session identifier S, after any sequence of N ≥ 1
qualifying requests carrying S, the `unique_visitors` table contains
exactly one row with `session_id = S`, whose `first_visit` is the first
request's timestamp and whose `last_visit` is the most recent one; the
upsert inserts `first_visit = last_visit = now` for an unseen session and
otherwise updates only `last_visit`.  The last conjunct ties the tracking
hook to the upsert for a request carrying cookie S. -/
theorem c1_visitor_row_invariant :
    (∀ (db : DB) (S : String) (now : Nat),
      db.unique_visitors.filter (fun v => v.session_id == S) = [] →
      (upsert_visitor db S now).unique_visitors.filter (fun v => v.session_id == S)
        = [⟨S, now, now⟩]) ∧
    (∀ (db : DB) (S : String) (now : Nat) (v : Visitor),
      db.unique_visitors.filter (fun v => v.session_id == S) = [v] →
      (upsert_visitor db S now).unique_visitors.filter (fun w => w.session_id == S)
        = [⟨S, v.first_visit, now⟩]) ∧
    (∀ (db0 : DB) (S : String) (t : Nat) (ts : List Nat),
      db0.unique_visitors.filter (fun v => v.session_id == S) = [] →
      (((t :: ts).foldl (fun d τ => upsert_visitor d S τ) db0).unique_visitors.filter
        (fun v => v.session_id == S)) = [⟨S, t, ts.getLastD t⟩]) ∧
    (∀ (req : Request) (resp : Response) (conn : Conn) (now : Nat)
        (freshId S : String) (debug : Bool),
      req.cookieSessionId = some S → S ≠ "" → qualifying req resp = true →
      ((trackPageView req resp conn now freshId none debug).2).committed.unique_visitors
        = (upsert_visitor conn.pending S now).unique_visitors) := by
  refine ⟨upsert_visitor_unseen, upsert_visitor_seen, ?_, ?_⟩
  · intro db0 S t ts h0
    rw [List.foldl_cons]
    exact upsert_fold_last S ts (upsert_visitor db0 S t) t t
      (upsert_visitor_unseen db0 S t h0)
  · intro req resp conn now freshId S debug hcookie hS hq
    rw [trackPageView_run req resp conn now freshId debug hq]
    simp [resolve_session, strTruthy, hcookie, hS, insert_page_view_unique_visitors]

/-- Witness for C1 at a concrete store and timestamp sequence. -/
theorem c1_visitor_row_invariant_witness :
    (((5 :: [9]).foldl (fun d τ => upsert_visitor d "s" τ) (DB.mk [] [])).unique_visitors.filter
      (fun v => v.session_id == "s")) = [⟨"s", 5, 9⟩] :=
  c1_visitor_row_invariant.2.2.1 (DB.mk [] []) "s" 5 [9] (by decide)

/-- **C2** For every request, the tracking hook appends exactly one row to
`page_views` iff the response is a 200 HTML response whose path is not
under `/static` or `/admin`; otherwise the store is untouched. -/
theorem c2_page_view_append_iff (req : Request) (resp : Response) (conn : Conn)
    (now : Nat) (freshId : String) (debug : Bool)
    (hfresh : conn.pending = conn.committed) :
    (QualifyingSpec req resp →
      ∃ r, ((trackPageView req resp conn now freshId none debug).2).committed.page_views
        = conn.committed.page_views ++ [r]) ∧
    (¬ QualifyingSpec req resp →
      ((trackPageView req resp conn now freshId none debug).2).committed
        = conn.committed) := by
  constructor
  · intro hQ
    have hq : qualifying req resp = true := (qualifying_iff req resp).mpr hQ
    rw [trackPageView_run req resp conn now freshId debug hq]
    simp only [insert_page_view, upsert_visitor_page_views, hfresh]
    exact ⟨_, rfl⟩
  · intro hQ
    have hq : qualifying req resp = false := by
      cases hqc : qualifying req resp with
      | true => exact absurd ((qualifying_iff req resp).mp hqc) hQ
      | false => rfl
    rw [trackPageView_skip req resp conn now freshId none debug hq]

/-- Witness for C2: a concrete 200 HTML request to `/` appends one row. -/
theorem c2_page_view_append_iff_witness :
    ∃ r, ((trackPageView (Request.mk "/" (some "S") none "1.1.1.1" none none)
        (Response.mk 200 (some "text/html") "b" []) (Conn.mk (DB.mk [] []) (DB.mk [] []))
        7 "fresh" none false).2).committed.page_views = [] ++ [r] :=
  (c2_page_view_append_iff (Request.mk "/" (some "S") none "1.1.1.1" none none)
      (Response.mk 200 (some "text/html") "b" []) (Conn.mk (DB.mk [] []) (DB.mk [] []))
      7 "fresh" false rfl).1
    ⟨rfl, ⟨"text/html", [], [], rfl, by decide⟩, by decide⟩

theorem likeSub_eq_true_of (pat s : String) (h : ContainsCI pat s) :
    likeSub pat s = true :=
  (likeSub_iff pat s).mpr h

theorem likeSub_eq_false_of (pat s : String) (h : ¬ ContainsCI pat s) :
    likeSub pat s = false := by
  cases hc : likeSub pat s with
  | true => exact absurd ((likeSub_iff pat s).mp hc) h
  | false => rfl

/-- **C3 counterexample** The claim says the classification is a
case-sensitive substring match; but SQLite's `LIKE` is case-insensitive
over ASCII, so the user-agent `"mozilla chrome"` is classified `Chrome` by
the code while the claimed case-sensitive chain would classify it
`Other`. -/
theorem c3_counterexample_case_insensitive :
    browserOf "mozilla chrome" = "Chrome" ∧
    browserOfSpecCS "mozilla chrome" = "Other" := by
  constructor <;> rfl

/-- **C3 (amended)** For every user-agent string, the browser-breakdown
classification assigns exactly one category by *case-insensitive* (ASCII)
substring match with first-match-wins precedence Chrome, Firefox, Safari,
Edge, else Other; a user-agent containing `Firefox` but not `Chrome`
classifies as Firefox, and one containing both `Chrome` and `Safari`
classifies as Chrome. -/
theorem c3_browser_classification (ua : String) :
    (ContainsCI "Chrome" ua → browserOf ua = "Chrome") ∧
    (¬ ContainsCI "Chrome" ua → ContainsCI "Firefox" ua →
      browserOf ua = "Firefox") ∧
    (¬ ContainsCI "Chrome" ua → ¬ ContainsCI "Firefox" ua →
      ContainsCI "Safari" ua → browserOf ua = "Safari") ∧
    (¬ ContainsCI "Chrome" ua → ¬ ContainsCI "Firefox" ua →
      ¬ ContainsCI "Safari" ua → ContainsCI "Edge" ua →
      browserOf ua = "Edge") ∧
    (¬ ContainsCI "Chrome" ua → ¬ ContainsCI "Firefox" ua →
      ¬ ContainsCI "Safari" ua → ¬ ContainsCI "Edge" ua →
      browserOf ua = "Other") := by
  refine ⟨?_, ?_, ?_, ?_, ?_⟩
  · intro h1
    simp [browserOf, likeSub_eq_true_of _ _ h1]
  · intro h1 h2
    simp [browserOf, likeSub_eq_false_of _ _ h1, likeSub_eq_true_of _ _ h2]
  · intro h1 h2 h3
    simp [browserOf, likeSub_eq_false_of _ _ h1, likeSub_eq_false_of _ _ h2,
      likeSub_eq_true_of _ _ h3]
  · intro h1 h2 h3 h4
    simp [browserOf, likeSub_eq_false_of _ _ h1, likeSub_eq_false_of _ _ h2,
      likeSub_eq_false_of _ _ h3, likeSub_eq_true_of _ _ h4]
  · intro h1 h2 h3 h4
    simp [browserOf, likeSub_eq_false_of _ _ h1, likeSub_eq_false_of _ _ h2,
      likeSub_eq_false_of _ _ h3, likeSub_eq_false_of _ _ h4]

/-- Witness for C3 at the spec's two scenarios. -/
theorem c3_browser_classification_witness :
    browserOf "Mozilla Firefox/92.0" = "Firefox" ∧
    browserOf "Mozilla Chrome/99 Safari/537" = "Chrome" :=
  ⟨(c3_browser_classification "Mozilla Firefox/92.0").2.1
      (fun hc => absurd (likeSub_eq_true_of "Chrome" _ hc) (by decide))
      ((likeSub_iff "Firefox" _).mp (by decide)),
   (c3_browser_classification "Mozilla Chrome/99 Safari/537").1
      ((likeSub_iff "Chrome" _).mp (by decide))⟩

/-- **C4** For every request and every fault point inside the tracking
steps, the hook still returns the response: its status, content type and
body are untouched, and the only possible modification is the session
cookie attached by normal (pre-fault) processing — no tracking-path error
changes the page response. -/
theorem c4_tracking_errors_contained (req : Request) (resp : Response)
    (conn : Conn) (now : Nat) (freshId : String) (fault : Option Nat)
    (debug : Bool) :
    (trackPageView req resp conn now freshId fault debug).1.status_code
      = resp.status_code ∧
    (trackPageView req resp conn now freshId fault debug).1.content_type
      = resp.content_type ∧
    (trackPageView req resp conn now freshId fault debug).1.body = resp.body ∧
    ((trackPageView req resp conn now freshId fault debug).1 = resp ∨
     (trackPageView req resp conn now freshId fault debug).1
       = setCookieOn resp (mkSessionCookie freshId debug)) := by
  have hmain : (trackPageView req resp conn now freshId fault debug).1 = resp ∨
      (trackPageView req resp conn now freshId fault debug).1
        = setCookieOn resp (mkSessionCookie freshId debug) := by
    simp only [trackPageView, resolve_session]
    split_ifs <;> simp_all [setCookieOn]
  rcases hmain with h | h <;> simp [h, setCookieOn]

/-- **C5** The views-today statistic counts exactly the page views in the
half-open interval from the start of the current day to the start of the
next: a row stamped exactly at the start of today is counted, a row
stamped exactly at the start of tomorrow is not. -/
theorem c5_views_today_half_open (db : DB) (now : Nat) :
    views_today db now =
      (db.page_views.filter (fun r =>
        decide (start_of_day now ≤ r.timestamp) &&
        decide (r.timestamp < start_of_day now + secPerDay))).length ∧
    (∀ r : PageView, r.timestamp = start_of_day now →
      views_today (DB.mk (db.page_views ++ [r]) db.unique_visitors) now
        = views_today db now + 1) ∧
    (∀ r : PageView, r.timestamp = start_of_day now + secPerDay →
      views_today (DB.mk (db.page_views ++ [r]) db.unique_visitors) now
        = views_today db now) := by
  refine ⟨rfl, ?_, ?_⟩
  · intro r hr
    simp [views_today, count_views_in_range, List.filter_append, hr, secPerDay]
  · intro r hr
    simp [views_today, count_views_in_range, List.filter_append, hr]

/-- Witness for C5 at a concrete store and clock. -/
theorem c5_views_today_half_open_witness :
    views_today (DB.mk ([] ++ [PageView.mk "s" "/" "i" "u" "r" 86400]) [])
        (86400 + 500)
      = views_today (DB.mk [] []) (86400 + 500) + 1 :=
  (c5_views_today_half_open (DB.mk [] []) (86400 + 500)).2.1
    (PageView.mk "s" "/" "i" "u" "r" 86400) (by decide)

/-- **C6** The visits-over-time chart returns two parallel sequences of
equal length: strictly ascending dates and per-day counts.  A day appears
iff it lies in the trailing 7-day window ending today and has at least one
page view (days with zero views are omitted), and each count is the number
of page views on that day. -/
theorem c6_visits_over_time (db : DB) (today : Nat)
    (hb : ∀ r ∈ db.page_views, dayOf r.timestamp ≤ today) :
    ((visits_over_time db today).1.length = (visits_over_time db today).2.length) ∧
    List.Sorted (fun a b => a < b) (visits_over_time db today).1 ∧
    (∀ d, d ∈ (visits_over_time db today).1 ↔
      (today - 6 ≤ d ∧ d ≤ today ∧ ∃ r ∈ db.page_views, dayOf r.timestamp = d)) ∧
    ((visits_over_time db today).2 = (visits_over_time db today).1.map
      (fun d => (db.page_views.filter (fun r => dayOf r.timestamp == d)).length)) := by
  have hvot : visits_over_time db today =
      (((db.page_views.filter (fun r => decide (today - 6 ≤ dayOf r.timestamp))).map
          (fun r => dayOf r.timestamp)).dedup.insertionSort (fun a b => a ≤ b),
       (((db.page_views.filter (fun r => decide (today - 6 ≤ dayOf r.timestamp))).map
          (fun r => dayOf r.timestamp)).dedup.insertionSort (fun a b => a ≤ b)).map
        (fun d => ((db.page_views.filter
          (fun r => decide (today - 6 ≤ dayOf r.timestamp))).filter
            (fun r => dayOf r.timestamp == d)).length)) := rfl
  have hperm := List.perm_insertionSort (fun a b : Nat => a ≤ b)
    ((db.page_views.filter (fun r => decide (today - 6 ≤ dayOf r.timestamp))).map
      (fun r => dayOf r.timestamp)).dedup
  have hnodup : ((db.page_views.filter
      (fun r => decide (today - 6 ≤ dayOf r.timestamp))).map
        (fun r => dayOf r.timestamp)).dedup.insertionSort (fun a b => a ≤ b)
        |>.Nodup :=
    hperm.nodup_iff.mpr (List.nodup_dedup _)
  have hmemdays : ∀ d, d ∈ (visits_over_time db today).1 ↔
      ∃ r ∈ db.page_views.filter (fun r => decide (today - 6 ≤ dayOf r.timestamp)),
        dayOf r.timestamp = d := by
    intro d
    rw [hvot]
    exact hperm.mem_iff.trans (List.mem_dedup.trans List.mem_map)
  refine ⟨by rw [hvot]; simp, ?_, ?_, ?_⟩
  · rw [hvot]
    exact List.Sorted.lt_of_le (List.sorted_insertionSort _ _) hnodup
  · intro d
    rw [hmemdays d]
    constructor
    · rintro ⟨r, hr, hday⟩
      rcases List.mem_filter.mp hr with ⟨hrpv, hcond⟩
      refine ⟨hday ▸ of_decide_eq_true hcond, hday ▸ hb r hrpv, r, hrpv, hday⟩
    · rintro ⟨hw, _, r, hrpv, hday⟩
      exact ⟨r, List.mem_filter.mpr ⟨hrpv, decide_eq_true (hday ▸ hw)⟩, hday⟩
  · conv_lhs => rw [hvot]
    conv_rhs => rw [hvot]
    apply List.map_congr_left
    intro d hd
    have hdmem : d ∈ (visits_over_time db today).1 := by rw [hvot]; exact hd
    rcases (hmemdays d).mp hdmem with ⟨r, hr, hday⟩
    have hw : today - 6 ≤ d :=
      hday ▸ of_decide_eq_true (List.mem_filter.mp hr).2
    rw [List.filter_filter]
    congr 1
    apply List.filter_congr
    intro x _
    cases hc : (dayOf x.timestamp == d) with
    | true =>
      have : dayOf x.timestamp = d := by simpa using hc
      simp [this, hw]
    | false => simp

theorem length_filter_split (l : List PageView) (p : PageView → Bool) :
    (l.filter p).length + (l.filter (fun r => !(p r))).length = l.length := by
  induction l with
  | nil => rfl
  | cons r rs ih =>
    cases hp : p r with
    | true =>
      simp only [List.filter_cons, hp, Bool.not_true, List.length_cons,
        if_true, if_false, Bool.false_eq_true, ite_false, ite_true]
      omega
    | false =>
      simp only [List.filter_cons, hp, Bool.not_false, List.length_cons,
        if_true, if_false, Bool.false_eq_true, ite_false, ite_true]
      omega

/-- Summing group sizes over a duplicate-free cover of the URLs recovers
the row count. -/
theorem sum_group_lengths (us : List String) : ∀ (l : List PageView),
    us.Nodup → (∀ r ∈ l, r.page_url ∈ us) →
    (us.map (fun u => (l.filter (fun r => r.page_url == u)).length)).sum
      = l.length := by
  induction us with
  | nil =>
    intro l _ hc
    have : l = [] := List.eq_nil_iff_forall_not_mem.mpr
      (fun r hr => by simpa using hc r hr)
    simp [this]
  | cons u us ih =>
    intro l hnd hc
    have hu : u ∉ us := (List.nodup_cons.mp hnd).1
    have hnd' : us.Nodup := (List.nodup_cons.mp hnd).2
    have hsplit := length_filter_split l (fun r => r.page_url == u)
    have hrest : ∀ u' ∈ us,
        (l.filter (fun r => r.page_url == u')).length
          = ((l.filter (fun r => !(r.page_url == u))).filter
              (fun r => r.page_url == u')).length := by
      intro u' hu'
      rw [List.filter_filter]
      congr 1
      apply List.filter_congr
      intro r _
      cases hru : (r.page_url == u') with
      | true =>
        have hrq : r.page_url = u' := by simpa using hru
        have : r.page_url ≠ u := by
          rw [hrq]; intro he; exact hu (he ▸ hu')
        simp [this]
      | false => simp
    have hih := ih (l.filter (fun r => !(r.page_url == u))) hnd' ?hc'
    case hc' =>
      intro r hr
      rcases List.mem_filter.mp hr with ⟨hrl, hrnu⟩
      rcases List.mem_cons.mp (hc r hrl) with h | h
      · exact absurd h (by simpa using hrnu)
      · exact h
    calc ((u :: us).map
            (fun u => (l.filter (fun r => r.page_url == u)).length)).sum
        = (l.filter (fun r => r.page_url == u)).length +
            (us.map (fun u' => (l.filter (fun r => r.page_url == u')).length)).sum := by
          simp
      _ = (l.filter (fun r => r.page_url == u)).length +
            (us.map (fun u' => ((l.filter (fun r => !(r.page_url == u))).filter
              (fun r => r.page_url == u')).length)).sum := by
          rw [List.map_congr_left hrest]
      _ = (l.filter (fun r => r.page_url == u)).length +
            (l.filter (fun r => !(r.page_url == u))).length := by rw [hih]
      _ = l.length := hsplit

/-- **C7** The total-views count equals the sum of the per-page view counts
produced by the unbounded top-pages grouping: no page-view row is
double-counted or dropped. -/
theorem c7_total_views_equals_group_sum (db : DB) :
    count_total_views db
      = ((top_pages db none).map (fun p => p.views)).sum := by
  have hperm : ((top_pages db none).map (fun p => p.views)).Perm
      ((((db.page_views.map (fun r => r.page_url)).dedup).map
        (fun u =>
          let rows := db.page_views.filter (fun r => r.page_url == u)
          PageStat.mk u rows.length
            ((rows.map (fun r => r.timestamp)).foldl max 0))).map
          (fun p => p.views)) :=
    List.Perm.map _ (List.perm_insertionSort _ _)
  rw [count_total_views, hperm.sum_eq, List.map_map]
  exact (sum_group_lengths ((db.page_views.map (fun r => r.page_url)).dedup)
    db.page_views (List.nodup_dedup _)
    (fun r hr => List.mem_dedup.mpr (List.mem_map.mpr ⟨r, hr, rfl⟩))).symm

/-- Witness for C6: with data only on days 1 and 7 of the window the chart
has exactly the two active days; the parallel lists have equal length. -/
theorem c6_visits_over_time_witness :
    (visits_over_time dbTwoDays 7).1 = [1, 7] ∧
    (visits_over_time dbTwoDays 7).2 = [1, 2] ∧
    (visits_over_time dbTwoDays 7).1.length = (visits_over_time dbTwoDays 7).2.length :=
  ⟨by decide, by decide, (c6_visits_over_time dbTwoDays 7 (by decide)).1⟩

/-- **C8 counterexample** A qualifying request whose session cookie is
present with the empty value: the claim says the supplied value is used
and no new cookie is set, but the code treats the empty cookie as absent,
mints `fresh`, sets a new cookie, and records the page view under
`fresh`. -/
theorem c8_counterexample_empty_cookie :
    reqEmptyCookie.cookieSessionId = some "" ∧
    (trackPageView reqEmptyCookie respHtml connEmpty 7 "fresh" none false).1.cookies
      = [mkSessionCookie "fresh" false] ∧
    (trackPageView reqEmptyCookie respHtml connEmpty 7 "fresh" none false).2.committed.page_views
      = [PageView.mk "fresh" "/" "1.1.1.1" "" "" 7] := by
  refine ⟨rfl, ?_, ?_⟩ <;> rfl

/-- **C8 (amended)** For every qualifying request with no session cookie
*or an empty one*, the hook mints the fresh identifier and attaches a
cookie with 30-day expiry, HttpOnly, SameSite=Lax, and Secure exactly when
not in debug mode; for every request carrying a *non-empty* session cookie
the supplied value is used as an opaque key (recorded verbatim in the
page-view row) and no new cookie is set. -/
theorem c8_session_cookie (req : Request) (resp : Response) (conn : Conn)
    (now : Nat) (freshId : String) (debug : Bool)
    (hq : qualifying req resp = true) :
    ((req.cookieSessionId = none ∨ req.cookieSessionId = some "") →
      (trackPageView req resp conn now freshId none debug).1
        = setCookieOn resp
            (SetCookie.mk "session_id" freshId (30 * 24 * 60 * 60) true "Lax" (!debug))) ∧
    (∀ S, req.cookieSessionId = some S → S ≠ "" →
      (trackPageView req resp conn now freshId none debug).1 = resp ∧
      (trackPageView req resp conn now freshId none debug).2.committed.page_views
        = conn.pending.page_views ++ [PageView.mk S req.path (get_client_ip req)
            (req.userAgent.getD "") (req.referer.getD "") now]) := by
  constructor
  · intro hc
    rw [trackPageView_run req resp conn now freshId debug hq]
    rcases hc with hc | hc <;>
      simp [resolve_session, strTruthy, hc, mkSessionCookie, setCookieOn]
  · intro S hc hS
    rw [trackPageView_run req resp conn now freshId debug hq]
    constructor
    · simp [resolve_session, strTruthy, hc, hS]
    · simp [resolve_session, strTruthy, hc, hS, insert_page_view,
        upsert_visitor_page_views]

/-- Witness for C8: a cookie-less request in debug mode gets a session
cookie with `Secure` off. -/
theorem c8_session_cookie_witness :
    (trackPageView reqNoCookie respHtml connEmpty 7 "fresh" none true).1
      = setCookieOn respHtml
          (SetCookie.mk "session_id" "fresh" (30 * 24 * 60 * 60) true "Lax" (!true)) :=
  (c8_session_cookie reqNoCookie respHtml connEmpty 7 "fresh" true (by decide)).1
    (Or.inl rfl)

/-- **C9 counterexample** The claim says the first comma-separated value of
the forwarded-for header is used whenever the header is present; with the
header present but empty the code falls back to the peer address while the
claimed rule yields the empty string. -/
theorem c9_counterexample_empty_header :
    reqEmptyXff.xForwardedFor = some "" ∧
    get_client_ip reqEmptyXff = "9.9.9.9" ∧
    clientIpSpec reqEmptyXff = "" := by
  refine ⟨rfl, ?_, ?_⟩ <;> rfl

/-- **C9 (amended)** The recorded client IP equals the whitespace-stripped
first comma-separated value of the forwarded-for header when that header
is present *and non-empty*, and otherwise equals the socket-level peer
address. -/
theorem c9_client_ip (req : Request) :
    (∀ h, req.xForwardedFor = some h → h ≠ "" →
      get_client_ip req = pyStrip (firstCommaField h)) ∧
    ((req.xForwardedFor = none ∨ req.xForwardedFor = some "") →
      get_client_ip req = req.remoteAddr) := by
  constructor
  · intro h hx hne
    simp [get_client_ip, strTruthy, hx, hne]
  · rintro (hx | hx) <;> simp [get_client_ip, strTruthy, hx]

/-- Witness for C9 on a populated forwarded-for header. -/
theorem c9_client_ip_witness :
    get_client_ip reqXff = pyStrip (firstCommaField " 1.2.3.4 , 5.6.7.8") ∧
    get_client_ip reqXff = "1.2.3.4" :=
  ⟨(c9_client_ip reqXff).1 " 1.2.3.4 , 5.6.7.8" rfl (by decide), by decide⟩

/-- **C10** For every qualifying request the visitor upsert and the
page-view insert reach the committed store together through the single
commit issued after both statements; a fault at any point before the
commit leaves the committed store exactly as it was. -/
theorem c10_single_commit (req : Request) (resp : Response) (conn : Conn)
    (now : Nat) (freshId : String) (debug : Bool)
    (hfresh : conn.pending = conn.committed)
    (hq : qualifying req resp = true) :
    (∀ k, 1 ≤ k → k ≤ 4 →
      (trackPageView req resp conn now freshId (some k) debug).2.committed
        = conn.committed) ∧
    ((trackPageView req resp conn now freshId none debug).2.committed
      = insert_page_view
          (upsert_visitor conn.committed (resolve_session req.cookieSessionId freshId).1 now)
          (resolve_session req.cookieSessionId freshId).1 req.path (get_client_ip req)
          (req.userAgent.getD "") (req.referer.getD "") now) := by
  constructor
  · intro k h1 h4
    interval_cases k <;> simp [trackPageView, hq]
  · rw [trackPageView_run req resp conn now freshId debug hq]
    simp [hfresh]

/-- Witness for C10: a fault just before the commit persists nothing. -/
theorem c10_single_commit_witness :
    (trackPageView (Request.mk "/" (some "S") none "1.1.1.1" none none)
      respHtml connEmpty 7 "fresh" (some 4) false).2.committed = DB.mk [] [] :=
  (c10_single_commit (Request.mk "/" (some "S") none "1.1.1.1" none none)
    respHtml connEmpty 7 "fresh" false rfl (by decide)).1 4 (by decide) (by decide)

end Portfo
